import Mathlib

/-!
Verification of the CriminalIP-API desktop client's batch-lookup core.

The development shallowly embeds the Python sources:
  * `src/gui/main_window.py` — `IPSearchWorker` (the batch executor),
    `MainWindow.search_ip` (batch start checks) and `MainWindow.add_result`
    (presentation-layer field extraction);
  * `src/api/criminal_ip.py` — `CriminalIPAPI` (HTTP client);
  * `src/config/settings.py` and `src/utils/crypto.py` — credential store.

Python dynamic values are embedded as `PyVal`; Python strings appearing in
parsing code are embedded as `List Char` so that `str.strip`/`str.split`
can be reasoned about character by character.  External collaborators
(the network, the `multiprocessing` pool's arbitrary completion order, the
`cryptography.fernet.Fernet` cipher, the CPU count) are parameters of the
embedded functions.
-/

namespace CriminalIP

/-- Embedding of a Python dynamic value (the subset the sources handle):
`None`, booleans, integers, strings, lists and string-keyed dicts. -/
inductive PyVal where
  | none
  | bool (b : Bool)
  | int (n : Int)
  | str (s : String)
  | list (l : List PyVal)
  | dict (d : List (String × PyVal))

/-- Result of the remote lookup as seen by one worker: `api.ip_summary(ip)`
either returns a payload or raises an exception carrying message `str(e)`. -/
inductive LookupResult where
  | success (payload : PyVal)
  | raise (msg : String)

/-- `true` iff the lookup raises. -/
def LookupResult.isRaise : LookupResult → Bool
  | .raise _ => true
  | .success _ => false

/-- The triple returned by `IPSearchWorker.process_ip`:
`(ip, summary_result-or-None, error-string-or-None)`. -/
structure Completion where
  ip : String
  data : Option PyVal
  err : Option String

/-- `IPSearchWorker.process_ip` (main_window.py lines 32–43): on success
returns `(ip, summary_result, None)`, on an exception `e` returns
`(ip, None, str(e))`.  `lookup` abstracts `CriminalIPAPI(api_key).ip_summary`. -/
def process_ip (lookup : String → LookupResult) (ip : String) : Completion :=
  match lookup ip with
  | .success d => ⟨ip, some d, Option.none⟩
  | .raise e => ⟨ip, Option.none, some e⟩

/-- Python truthiness of the `error` slot, as tested by `if error:` in
`IPSearchWorker.run`: `None` and the empty string are falsy. -/
def errTruthy : Option String → Bool
  | Option.none => false
  | some s => s ≠ ""

/-- One event delivered to the Result Sink (a Qt signal emission). -/
inductive Event where
  | progress (current total : Nat)
  | result (ip : String) (data : Option PyVal)
  | error (ip : String) (msg : String)
  | finished

/-- The per-completion emission in `IPSearchWorker.run` (lines 61–64):
`if error: self.error.emit(ip, error) else: self.result.emit(ip, data)`.
Note the truthiness test: an exception whose `str` is empty takes the
`else` branch and is emitted through `result` with `data = None`. -/
def emitCompletion (c : Completion) : Event :=
  if errTruthy c.err then Event.error c.ip (c.err.getD "") else Event.result c.ip c.data

/-- The drain loop of `IPSearchWorker.run` (lines 53–67).  `completions` is
the stream produced by `pool.imap_unordered` in its (arbitrary) arrival
order; `alive i` is the value of `self._is_running` read at the top of the
`i`-th iteration; `processed` and `total` are the progress counters.
Each non-cancelled iteration emits the outcome then `progress.emit`. -/
def runLoop (alive : Nat → Bool) (total : Nat) :
    Nat → Nat → List Completion → List Event
  | _, _, [] => []
  | i, processed, c :: rest =>
    if alive i then
      emitCompletion c :: Event.progress (processed + 1) total ::
        runLoop alive total (i + 1) (processed + 1) rest
    else []

/-- `IPSearchWorker.run` (lines 45–69): drain the pool, then
`self.finished.emit()` unconditionally. -/
def run (alive : Nat → Bool) (completions : List Completion) : List Event :=
  runLoop alive completions.length 0 0 completions ++ [Event.finished]

/-- Classifier: terminal outcome events (`result` or `error` emissions). -/
def isOutcome : Event → Bool
  | .result _ _ => true
  | .error _ _ => true
  | _ => false

def isErrorEvent : Event → Bool
  | .error _ _ => true
  | _ => false

def isResultEvent : Event → Bool
  | .result _ _ => true
  | _ => false

def isFinishedEvent : Event → Bool
  | .finished => true
  | _ => false

/-- The `(current, total)` pairs of the progress emissions, in order. -/
def progressPairs (evs : List Event) : List (Nat × Nat) :=
  evs.filterMap fun e =>
    match e with
    | .progress c t => some (c, t)
    | _ => Option.none

/-- The `(ip, message)` pairs of the failure emissions, in order. -/
def errorPairs (evs : List Event) : List (String × String) :=
  evs.filterMap fun e =>
    match e with
    | .error ip m => some (ip, m)
    | _ => Option.none

/- ### Basic facts about the drain loop -/

@[simp] theorem isOutcome_result (ip : String) (d : Option PyVal) :
    isOutcome (Event.result ip d) = true := rfl

@[simp] theorem isOutcome_error (ip m : String) : isOutcome (Event.error ip m) = true := rfl

@[simp] theorem isOutcome_progress (c t : Nat) : isOutcome (Event.progress c t) = false := rfl

@[simp] theorem isOutcome_finished : isOutcome Event.finished = false := rfl

@[simp] theorem isErrorEvent_result (ip : String) (d : Option PyVal) :
    isErrorEvent (Event.result ip d) = false := rfl

@[simp] theorem isErrorEvent_error (ip m : String) : isErrorEvent (Event.error ip m) = true := rfl

@[simp] theorem isErrorEvent_progress (c t : Nat) : isErrorEvent (Event.progress c t) = false := rfl

@[simp] theorem isErrorEvent_finished : isErrorEvent Event.finished = false := rfl

@[simp] theorem isResultEvent_result (ip : String) (d : Option PyVal) :
    isResultEvent (Event.result ip d) = true := rfl

@[simp] theorem isResultEvent_error (ip m : String) :
    isResultEvent (Event.error ip m) = false := rfl

@[simp] theorem isResultEvent_progress (c t : Nat) :
    isResultEvent (Event.progress c t) = false := rfl

@[simp] theorem isResultEvent_finished : isResultEvent Event.finished = false := rfl

@[simp] theorem isFinishedEvent_result (ip : String) (d : Option PyVal) :
    isFinishedEvent (Event.result ip d) = false := rfl

@[simp] theorem isFinishedEvent_error (ip m : String) :
    isFinishedEvent (Event.error ip m) = false := rfl

@[simp] theorem isFinishedEvent_progress (c t : Nat) :
    isFinishedEvent (Event.progress c t) = false := rfl

@[simp] theorem isFinishedEvent_finished : isFinishedEvent Event.finished = true := rfl

@[simp] theorem isOutcome_emitCompletion (c : Completion) :
    isOutcome (emitCompletion c) = true := by
  unfold emitCompletion
  by_cases h : errTruthy c.err <;> simp [h]

@[simp] theorem isFinished_emitCompletion (c : Completion) :
    isFinishedEvent (emitCompletion c) = false := by
  unfold emitCompletion
  by_cases h : errTruthy c.err <;> simp [h]

/-- The drain loop never emits the completion signal. -/
theorem countP_finished_runLoop (alive : Nat → Bool) (total : Nat) :
    ∀ (cs : List Completion) (i p : Nat),
      (runLoop alive total i p cs).countP isFinishedEvent = 0 := by
  intro cs
  induction cs with
  | nil => intro i p; simp [runLoop]
  | cons c rest ih =>
    intro i p
    by_cases h : alive i
    · simp [runLoop, h, List.countP_cons, ih]
    · simp [runLoop, h]

/-- In an uncancelled drain, failure emissions count the completions whose
error slot is truthy. -/
theorem countP_error_runLoop_true (total : Nat) :
    ∀ (cs : List Completion) (i p : Nat),
      (runLoop (fun _ => true) total i p cs).countP isErrorEvent
        = cs.countP (fun c => errTruthy c.err) := by
  intro cs
  induction cs with
  | nil => intro i p; simp [runLoop]
  | cons c rest ih =>
    intro i p
    by_cases h : errTruthy c.err
    · simp [runLoop, List.countP_cons, ih, emitCompletion, h]
    · simp [runLoop, List.countP_cons, ih, emitCompletion, h]

/-- In an uncancelled drain, success emissions count the completions whose
error slot is falsy. -/
theorem countP_result_runLoop_true (total : Nat) :
    ∀ (cs : List Completion) (i p : Nat),
      (runLoop (fun _ => true) total i p cs).countP isResultEvent
        = cs.countP (fun c => !errTruthy c.err) := by
  intro cs
  induction cs with
  | nil => intro i p; simp [runLoop]
  | cons c rest ih =>
    intro i p
    by_cases h : errTruthy c.err
    · simp [runLoop, List.countP_cons, ih, emitCompletion, h]
    · simp [runLoop, List.countP_cons, ih, emitCompletion, h]

/-- An uncancelled drain emits one terminal outcome per completion. -/
theorem countP_outcome_runLoop_true (total : Nat) :
    ∀ (cs : List Completion) (i p : Nat),
      (runLoop (fun _ => true) total i p cs).countP isOutcome = cs.length := by
  intro cs
  induction cs with
  | nil => intro i p; simp [runLoop]
  | cons c rest ih =>
    intro i p
    simp [runLoop, List.countP_cons, ih]

/-- The progress emissions of any drain are `(p+1, total), (p+2, total), …`,
one per delivered outcome. -/
theorem progressPairs_runLoop (alive : Nat → Bool) (total : Nat) :
    ∀ (cs : List Completion) (i p : Nat),
      progressPairs (runLoop alive total i p cs)
        = (List.range ((runLoop alive total i p cs).countP isOutcome)).map
            (fun k => (p + k + 1, total)) := by
  intro cs
  induction cs with
  | nil => intro i p; simp [runLoop, progressPairs]
  | cons c rest ih =>
    intro i p
    by_cases h : alive i
    · have hout : (runLoop alive total i p (c :: rest)).countP isOutcome
          = (runLoop alive total (i + 1) (p + 1) rest).countP isOutcome + 1 := by
        simp [runLoop, h, List.countP_cons]
      rw [hout]
      have hemit : progressPairs (runLoop alive total i p (c :: rest))
          = progressPairs (emitCompletion c :: Event.progress (p + 1) total ::
              runLoop alive total (i + 1) (p + 1) rest) := by
        simp [runLoop, h]
      rw [hemit]
      have hskip : progressPairs (emitCompletion c :: Event.progress (p + 1) total ::
            runLoop alive total (i + 1) (p + 1) rest)
          = (p + 1, total) :: progressPairs (runLoop alive total (i + 1) (p + 1) rest) := by
        unfold emitCompletion
        by_cases hc : errTruthy c.err <;> simp [hc, progressPairs]
      rw [hskip, ih, List.range_succ_eq_map, List.map_cons, List.map_map]
      refine List.cons_eq_cons.mpr ⟨by simp, ?_⟩
      refine List.map_congr_left (fun k _ => ?_)
      simp only [Function.comp_apply, Prod.mk.injEq]
      exact ⟨by omega, trivial⟩
    · simp [runLoop, h, progressPairs]

/-- The failure emissions of an uncancelled drain carry exactly the
`(ip, message)` pairs of the truthy-error completions, in arrival order. -/
theorem errorPairs_runLoop_true (total : Nat) :
    ∀ (cs : List Completion) (i p : Nat),
      errorPairs (runLoop (fun _ => true) total i p cs)
        = cs.filterMap (fun c =>
            if errTruthy c.err then some (c.ip, c.err.getD "") else Option.none) := by
  intro cs
  induction cs with
  | nil => intro i p; simp [runLoop, errorPairs]
  | cons c rest ih =>
    intro i p
    by_cases h : errTruthy c.err
    · simp [runLoop, errorPairs, emitCompletion, h]
      exact ih (i + 1) (p + 1)
    · simp [runLoop, errorPairs, emitCompletion, h]
      exact ih (i + 1) (p + 1)

/-- A drain whose liveness flag is dropped before the `M`-th check behaves
exactly like an uncancelled drain of the first `M - i` completions. -/
theorem runLoop_cancel_eq_take (M total : Nat) :
    ∀ (cs : List Completion) (i p : Nat),
      runLoop (fun j => decide (j < M)) total i p cs
        = runLoop (fun _ => true) total i p (cs.take (M - i)) := by
  intro cs
  induction cs with
  | nil => intro i p; simp [runLoop]
  | cons c rest ih =>
    intro i p
    by_cases h : i < M
    · have htake : (c :: rest).take (M - i) = c :: rest.take (M - (i + 1)) := by
        have : M - i = (M - (i + 1)) + 1 := by omega
        rw [this, List.take_succ_cons]
      rw [htake]
      simp [runLoop, h, ih]
    · have htake : (c :: rest).take (M - i) = [] := by
        have : M - i = 0 := by omega
        simp [this]
      rw [htake]
      simp [runLoop, h]

/-- The completion signal is the last event of every run. -/
theorem run_getLast (alive : Nat → Bool) (cs : List Completion) :
    (run alive cs).getLast? = some Event.finished := by
  unfold run
  exact List.getLast?_concat _

/-- Every run emits the completion signal exactly once. -/
theorem run_finished_once (alive : Nat → Bool) (cs : List Completion) :
    (run alive cs).countP isFinishedEvent = 1 := by
  unfold run
  rw [List.countP_append, countP_finished_runLoop]
  rfl

theorem length_eq_countP_add_countP_not {α : Type} (l : List α) (p : α → Bool) :
    l.length = l.countP p + l.countP (fun a => !p a) := by
  induction l with
  | nil => simp
  | cons a t ih => by_cases h : p a <;> simp [List.countP_cons, h, ih] <;> omega

theorem countP_error_run_true (cs : List Completion) :
    (run (fun _ => true) cs).countP isErrorEvent = cs.countP (fun c => errTruthy c.err) := by
  unfold run
  rw [List.countP_append, countP_error_runLoop_true]
  rfl

theorem countP_result_run_true (cs : List Completion) :
    (run (fun _ => true) cs).countP isResultEvent = cs.countP (fun c => !errTruthy c.err) := by
  unfold run
  rw [List.countP_append, countP_result_runLoop_true]
  rfl

theorem errorPairs_run_true (cs : List Completion) :
    errorPairs (run (fun _ => true) cs)
      = cs.filterMap (fun c =>
          if errTruthy c.err then some (c.ip, c.err.getD "") else Option.none) := by
  unfold run
  rw [errorPairs, List.filterMap_append, ← errorPairs, errorPairs_runLoop_true]
  simp [errorPairs]

/- ### Claim theorems for the executor -/

/-- C1 (counterexample): with a single target whose lookup raises an
exception whose textual description is the empty string (`str(e) = ""`),
`K = 1` of `N = 1` lookups fail, yet the uncancelled run delivers `0`
failure events and `1` success event: `if error:` is a truthiness test, so
an empty error message is routed to `result.emit(ip, None)`. -/
theorem run_empty_error_message_counterexample :
    (["8.8.8.8"].countP fun ip =>
        ((fun _ : String => LookupResult.raise "") ip).isRaise) = 1
    ∧ (run (fun _ => true)
          (["8.8.8.8"].map (process_ip (fun _ => LookupResult.raise "")))).countP
        isErrorEvent = 0
    ∧ (run (fun _ => true)
          (["8.8.8.8"].map (process_ip (fun _ => LookupResult.raise "")))).countP
        isResultEvent = 1 := by
  refine ⟨rfl, ?_, ?_⟩ <;> rfl

/-- C1 (amended): for an uncancelled run over targets `ips`, with the pool
delivering the per-target triples in an arbitrary order, if each raised
exception has a non-empty textual description then exactly `K` failure
events and `N − K` success events are delivered (`K` = number of raising
targets, independent of their positions), and the failure events carry
exactly the `(ip, message)` pairs of the raising targets. -/
theorem run_failure_success_counts (lookup : String → LookupResult) (ips : List String)
    (completions : List Completion)
    (hperm : completions.Perm (ips.map (process_ip lookup)))
    (hmsg : ∀ ip ∈ ips, ∀ m, lookup ip = LookupResult.raise m → m ≠ "") :
    (run (fun _ => true) completions).countP isErrorEvent
        = ips.countP (fun ip => (lookup ip).isRaise)
    ∧ (run (fun _ => true) completions).countP isResultEvent
        = ips.length - ips.countP (fun ip => (lookup ip).isRaise)
    ∧ (errorPairs (run (fun _ => true) completions)).Perm
        (ips.filterMap (fun ip =>
          match lookup ip with
          | LookupResult.raise m => some (ip, m)
          | LookupResult.success _ => Option.none)) := by
  have hpoint : ∀ ip ∈ ips,
      errTruthy ((process_ip lookup ip).err) = (lookup ip).isRaise := by
    intro ip hip
    cases hl : lookup ip with
    | success d => simp [process_ip, hl, errTruthy, LookupResult.isRaise]
    | raise m =>
      have hm : m ≠ "" := hmsg ip hip m hl
      simp [process_ip, hl, errTruthy, LookupResult.isRaise, hm]
  have herr : (run (fun _ => true) completions).countP isErrorEvent
      = ips.countP (fun ip => (lookup ip).isRaise) := by
    rw [countP_error_run_true, hperm.countP_eq, List.countP_map]
    refine List.countP_congr fun ip hip => ?_
    simp only [Function.comp_apply]
    rw [hpoint ip hip]
  refine ⟨herr, ?_, ?_⟩
  · have hres : (run (fun _ => true) completions).countP isResultEvent
        = ips.countP (fun ip => !(lookup ip).isRaise) := by
      rw [countP_result_run_true, hperm.countP_eq, List.countP_map]
      refine List.countP_congr fun ip hip => ?_
      simp only [Function.comp_apply]
      rw [hpoint ip hip]
    rw [hres]
    have h2 := length_eq_countP_add_countP_not ips (fun ip => (lookup ip).isRaise)
    omega
  · rw [errorPairs_run_true]
    refine (hperm.filterMap _).trans ?_
    rw [List.filterMap_map]
    have : ∀ ip ∈ ips,
        ((fun c => if errTruthy c.err then some (c.ip, c.err.getD "") else Option.none)
            ∘ process_ip lookup) ip
          = (fun ip =>
              match lookup ip with
              | LookupResult.raise m => some (ip, m)
              | LookupResult.success _ => Option.none) ip := by
      intro ip hip
      cases hl : lookup ip with
      | success d => simp [process_ip, hl, errTruthy]
      | raise m =>
        have hm : m ≠ "" := hmsg ip hip m hl
        simp [process_ip, hl, errTruthy, hm]
    rw [List.filterMap_congr this]

/-- C1 (witness): 3 targets, the second configured to fail with message
"timeout": exactly 1 failure event and 2 success events. -/
theorem run_failure_success_counts_witness :
    (run (fun _ => true)
        (["8.8.8.8", "bad", "1.1.1.1"].map
          (process_ip (fun ip =>
            if ip = "bad" then LookupResult.raise "timeout"
            else LookupResult.success (PyVal.dict []))))).countP isErrorEvent = 1
    ∧ (run (fun _ => true)
        (["8.8.8.8", "bad", "1.1.1.1"].map
          (process_ip (fun ip =>
            if ip = "bad" then LookupResult.raise "timeout"
            else LookupResult.success (PyVal.dict []))))).countP isResultEvent = 2 := by
  have hmsg : ∀ ip ∈ ["8.8.8.8", "bad", "1.1.1.1"], ∀ m,
      (fun ip => if ip = "bad" then LookupResult.raise "timeout"
        else LookupResult.success (PyVal.dict [])) ip = LookupResult.raise m → m ≠ "" := by
    intro ip _ m hm
    dsimp only at hm
    by_cases h : ip = "bad"
    · rw [if_pos h] at hm
      cases hm
      decide
    · rw [if_neg h] at hm
      exact absurd hm (by simp)
  have h := run_failure_success_counts
      (fun ip => if ip = "bad" then LookupResult.raise "timeout"
        else LookupResult.success (PyVal.dict []))
      ["8.8.8.8", "bad", "1.1.1.1"] _ (List.Perm.refl _) hmsg
  refine ⟨?_, ?_⟩
  · rw [h.1]; rfl
  · rw [h.2.1]; rfl

/-- C2: if cancellation is observed from the `M`-th liveness check on
(`M` completions were delivered before it, `M < N`), the run delivers the
outcomes of exactly the first `M` arrivals — the remaining in-flight
results are dropped and no outcome follows the observation — at most `N`
outcomes in total, and the completion signal is still emitted exactly
once, after every other event. -/
theorem run_cancellation (M : Nat) (cs : List Completion) (h : M < cs.length) :
    run (fun i => decide (i < M)) cs
        = runLoop (fun _ => true) cs.length 0 0 (cs.take M) ++ [Event.finished]
    ∧ (run (fun i => decide (i < M)) cs).countP isOutcome = M
    ∧ (run (fun i => decide (i < M)) cs).countP isOutcome ≤ cs.length
    ∧ (run (fun i => decide (i < M)) cs).countP isFinishedEvent = 1
    ∧ (run (fun i => decide (i < M)) cs).getLast? = some Event.finished := by
  have heq : run (fun i => decide (i < M)) cs
      = runLoop (fun _ => true) cs.length 0 0 (cs.take M) ++ [Event.finished] := by
    unfold run
    rw [runLoop_cancel_eq_take]
    simp
  have hcount : (run (fun i => decide (i < M)) cs).countP isOutcome = M := by
    rw [heq, List.countP_append, countP_outcome_runLoop_true, List.length_take]
    simp
    omega
  exact ⟨heq, hcount, by omega, run_finished_once _ cs, run_getLast _ cs⟩

/-- C2 (witness): two completions, cancellation observed after the first:
exactly one outcome is delivered and the completion signal still fires. -/
theorem run_cancellation_witness :
    (run (fun i => decide (i < 1))
        [⟨"a", some (PyVal.dict []), Option.none⟩,
         ⟨"b", Option.none, some "boom"⟩]).countP isOutcome = 1
    ∧ (run (fun i => decide (i < 1))
        [⟨"a", some (PyVal.dict []), Option.none⟩,
         ⟨"b", Option.none, some "boom"⟩]).countP isFinishedEvent = 1
    ∧ (run (fun i => decide (i < 1))
        [⟨"a", some (PyVal.dict []), Option.none⟩,
         ⟨"b", Option.none, some "boom"⟩]).getLast? = some Event.finished := by
  have h := run_cancellation 1
      [⟨"a", some (PyVal.dict []), Option.none⟩, ⟨"b", Option.none, some "boom"⟩]
      (by simp)
  exact ⟨h.2.1, h.2.2.2.1, h.2.2.2.2⟩

/-- C3: every run — cancelled or not — emits the completion signal exactly
once, and it is the final event: the run is its `dropLast` (which contains
no completion signal) followed by the single `finished` emission, so
`finished` strictly follows every outcome and progress event of the run. -/
theorem run_completion_signal (alive : Nat → Bool) (cs : List Completion) :
    (run alive cs).countP isFinishedEvent = 1
    ∧ run alive cs = (run alive cs).dropLast ++ [Event.finished]
    ∧ (run alive cs).dropLast.countP isFinishedEvent = 0 := by
  have hdl : (run alive cs).dropLast = runLoop alive cs.length 0 0 cs := by
    unfold run
    exact List.dropLast_concat
  refine ⟨run_finished_once alive cs, ?_, ?_⟩
  · rw [hdl]; rfl
  · rw [hdl]
    exact countP_finished_runLoop alive cs.length cs 0 0

/-- Outcome count of any drain never exceeds the number of completions. -/
theorem countP_outcome_runLoop_le (alive : Nat → Bool) (total : Nat) :
    ∀ (cs : List Completion) (i p : Nat),
      (runLoop alive total i p cs).countP isOutcome ≤ cs.length := by
  intro cs
  induction cs with
  | nil => intro i p; simp [runLoop]
  | cons c rest ih =>
    intro i p
    by_cases h : alive i
    · simp only [runLoop, h, if_true, List.countP_cons]
      have := ih (i + 1) (p + 1)
      simp
      omega
    · simp [runLoop, h]

/-- C4: the progress emissions of a run over `N` targets are exactly
`(1, N), (2, N), …, (m, N)` — one per delivered outcome, strictly
increasing, with `completed ≤ total` and `total` fixed at `N` throughout —
and an uncancelled run over a non-empty batch ends at `(N, N)`. -/
theorem run_progress_invariants (alive : Nat → Bool) (cs : List Completion) :
    progressPairs (run alive cs)
        = (List.range ((run alive cs).countP isOutcome)).map (fun k => (k + 1, cs.length))
    ∧ (run alive cs).countP isOutcome ≤ cs.length
    ∧ List.Chain' (fun a b : Nat × Nat => a.1 < b.1) (progressPairs (run alive cs))
    ∧ (∀ pr ∈ progressPairs (run alive cs), pr.1 ≤ pr.2 ∧ pr.2 = cs.length)
    ∧ ((∀ i, alive i = true) → cs ≠ [] →
        (progressPairs (run alive cs)).getLast? = some (cs.length, cs.length)) := by
  have hcount : (run alive cs).countP isOutcome
      = (runLoop alive cs.length 0 0 cs).countP isOutcome := by
    unfold run
    rw [List.countP_append]
    rfl
  have hpp : progressPairs (run alive cs) = progressPairs (runLoop alive cs.length 0 0 cs) := by
    unfold run progressPairs
    rw [List.filterMap_append]
    simp
  have hmain : progressPairs (run alive cs)
      = (List.range ((run alive cs).countP isOutcome)).map (fun k => (k + 1, cs.length)) := by
    rw [hpp, hcount, progressPairs_runLoop]
    exact List.map_congr_left fun k _ => by simp
  have hle : (run alive cs).countP isOutcome ≤ cs.length := by
    rw [hcount]
    exact countP_outcome_runLoop_le alive cs.length cs 0 0
  refine ⟨hmain, hle, ?_, ?_, ?_⟩
  · rw [hmain]
    refine List.Pairwise.chain' ?_
    refine List.Pairwise.map _ (fun a b hab => ?_) (List.pairwise_lt_range _)
    simpa using hab
  · intro pr hpr
    rw [hmain] at hpr
    obtain ⟨k, hk, rfl⟩ := List.mem_map.mp hpr
    have hk' : k < (run alive cs).countP isOutcome := List.mem_range.mp hk
    exact ⟨by omega, rfl⟩
  · intro halive hne
    have halive' : alive = fun _ => true := funext fun i => halive i
    have hN : (run alive cs).countP isOutcome = cs.length := by
      rw [hcount, halive', countP_outcome_runLoop_true]
    obtain ⟨n, hn⟩ := Nat.exists_eq_succ_of_ne_zero
      (Nat.pos_iff_ne_zero.mp (List.length_pos.mpr hne))
    rw [hmain, hN, hn, List.range_succ, List.map_append]
    simp [List.getLast?_concat]

/-- C4 (witness): a single always-succeeding target: the progress trace is
`[(1, 1)]` and its last emission is `(N, N) = (1, 1)`. -/
theorem run_progress_invariants_witness :
    progressPairs (run (fun _ => true) [⟨"a", some (PyVal.dict []), Option.none⟩]) = [(1, 1)]
    ∧ (progressPairs
        (run (fun _ => true) [⟨"a", some (PyVal.dict []), Option.none⟩])).getLast?
      = some (1, 1)
    ∧ ((1, 1) ∈ progressPairs (run (fun _ => true) [⟨"a", some (PyVal.dict []), Option.none⟩])
        → (1, 1).1 ≤ (1, 1).2 ∧ (1, 1).2 = 1) := by
  have h := run_progress_invariants (fun _ => true) [⟨"a", some (PyVal.dict []), Option.none⟩]
  have e1 : progressPairs (run (fun _ => true) [⟨"a", some (PyVal.dict []), Option.none⟩])
      = [(1, 1)] := by
    rw [h.1]; rfl
  refine ⟨e1, h.2.2.2.2 (fun _ => rfl) (by simp), fun hm => h.2.2.2.1 (1, 1) hm⟩

/- ### Batch start: `MainWindow.search_ip` (main_window.py lines 260–301)

Python strings handled by the parsing code are embedded as `List Char`.
`str.strip()` removes leading and trailing Python whitespace;
`str.split('\n')` splits on newlines. -/

/-- The characters `str.strip()` removes (Python whitespace: space, tab,
newline, carriage return, vertical tab, form feed). -/
def pyIsSpace (c : Char) : Bool :=
  c = ' ' || c = '\t' || c = '\n' || c = '\r' || c = Char.ofNat 11 || c = Char.ofNat 12

/-- `str.strip()`: drop whitespace from both ends. -/
def strip (s : List Char) : List Char :=
  ((s.dropWhile pyIsSpace).reverse.dropWhile pyIsSpace).reverse

/-- `str.split('\n')`. -/
def splitNL : List Char → List (List Char)
  | [] => [[]]
  | c :: rest =>
    if c = '\n' then [] :: splitNL rest
    else
      match splitNL rest with
      | [] => [[c]]
      | l :: ls => (c :: l) :: ls

/-- `[ip.strip() for ip in ip_text.split('\n') if ip.strip()]`
(main_window.py line 272). -/
def parseIpList (ipText : List Char) : List (List Char) :=
  ((splitNL ipText).map strip).filter (fun l => decide (l ≠ []))

/-- The two synchronous ways `MainWindow.search_ip` refuses to start a
batch: no configured API client (missing/empty credential, shown as the
"set the API key first" warning) and an all-whitespace target text (shown
as the "enter an IP address" warning).  The spec's §7 names these
`ConfigurationError` and `PreconditionError`. -/
inductive StartError where
  | configurationError
  | preconditionError

/-- `MainWindow` holds an API client only after a non-empty key was saved
or loaded: `self.api = None` in `__init__`, and
`if saved_api_key: self.api = CriminalIPAPI(saved_api_key)` — a Python
truthiness test, so the empty-string credential leaves `self.api = None`. -/
def apiFromCredential (cred : String) : Option String :=
  if cred = "" then Option.none else some cred

/-- The start-of-batch checks of `MainWindow.search_ip`:
`if not self.api: warn; return`, then
`if not ip_text.strip(): warn; return`, else build the IP list and
dispatch a worker over it. -/
def search_ip (api : Option String) (ipText : List Char) :
    Except StartError (List (List Char)) :=
  match api with
  | Option.none => Except.error StartError.configurationError
  | some _ =>
    if strip ipText = [] then Except.error StartError.preconditionError
    else Except.ok (parseIpList ipText)

/-- Events the Result Sink receives from one `search_ip` invocation: a
refused start dispatches no worker, so the sink receives nothing;
otherwise the dispatched worker's run is delivered (shown uncancelled). -/
def search_ip_events (api : Option String) (ipText : List Char)
    (lookup : String → LookupResult) : List Event :=
  match search_ip api ipText with
  | Except.error _ => []
  | Except.ok ips => run (fun _ => true) ((ips.map fun l => String.mk l).map (process_ip lookup))

theorem dropWhile_eq_nil_iff_all {l : List Char} {p : Char → Bool} :
    l.dropWhile p = [] ↔ l.all p := by
  rw [List.all_eq_true, List.dropWhile_eq_nil_iff]

/-- A string strips to nothing exactly when it is all whitespace. -/
theorem strip_eq_nil_iff (s : List Char) : strip s = [] ↔ s.all pyIsSpace := by
  unfold strip
  rw [List.reverse_eq_nil_iff, dropWhile_eq_nil_iff_all, List.all_eq_true]
  constructor
  · intro h
    rw [List.all_eq_true]
    intro a ha
    rcases (List.mem_append.mp
        ((List.takeWhile_append_dropWhile (p := pyIsSpace) (l := s)) ▸ ha)) with hmem | hmem
    · exact List.mem_takeWhile_imp hmem
    · exact h a (List.mem_reverse.mpr hmem)
  · intro h a ha
    rw [List.all_eq_true] at h
    exact h a ((List.dropWhile_sublist _).subset (List.mem_reverse.mp ha))

theorem splitNL_ne_nil (s : List Char) : splitNL s ≠ [] := by
  cases s with
  | nil => simp [splitNL]
  | cons c rest =>
    by_cases h : c = '\n'
    · simp [splitNL, h]
    · simp only [splitNL, h, if_false]
      cases splitNL rest <;> simp

/-- Every line of a split is all-whitespace exactly when the whole string
is ('\n' itself being whitespace). -/
theorem splitNL_all_space (s : List Char) :
    ((splitNL s).all fun l => l.all pyIsSpace) = s.all pyIsSpace := by
  induction s with
  | nil => simp [splitNL]
  | cons c rest ih =>
    by_cases h : c = '\n'
    · subst h
      have hsplit : splitNL ('\n' :: rest) = [] :: splitNL rest := rfl
      rw [hsplit, List.all_cons, ih, List.all_cons]
      have hnl : pyIsSpace '\n' = true := by decide
      rw [hnl]
      simp
    · obtain ⟨l, ls, hls⟩ := List.exists_cons_of_ne_nil (splitNL_ne_nil rest)
      have hsplit : splitNL (c :: rest) = (c :: l) :: ls := by
        simp only [splitNL, h, if_false, hls]
      rw [hsplit, List.all_cons, List.all_cons]
      rw [hls, List.all_cons] at ih
      rw [List.all_cons, ← ih, Bool.and_assoc]

/-- If the parsed target list is empty, the raw text was all whitespace. -/
theorem parseIpList_eq_nil_imp (ipText : List Char) (h : parseIpList ipText = []) :
    strip ipText = [] := by
  rw [strip_eq_nil_iff, ← splitNL_all_space, List.all_eq_true]
  intro l hl
  rw [← strip_eq_nil_iff]
  unfold parseIpList at h
  rw [List.filter_eq_nil_iff] at h
  have := h (strip l) (List.mem_map_of_mem strip hl)
  simpa using this

/-- C5: with an empty-string credential, no API client exists, so
`search_ip` refuses the batch with the configuration error synchronously —
before any worker is dispatched — and the Result Sink receives zero
events; in particular the missing credential never surfaces as a
per-target failure event. -/
theorem search_ip_empty_credential (ipText : List Char) (lookup : String → LookupResult) :
    apiFromCredential "" = Option.none
    ∧ search_ip (apiFromCredential "") ipText = Except.error StartError.configurationError
    ∧ search_ip_events (apiFromCredential "") ipText lookup = [] := by
  have hapi : apiFromCredential "" = Option.none := rfl
  refine ⟨hapi, ?_, ?_⟩
  · rw [hapi]; rfl
  · unfold search_ip_events
    rw [hapi]
    rfl

/-- C6: a batch whose parsed target list is empty is refused with the
synchronous precondition error — no worker is dispatched and the sink
receives zero events — rather than completing as a batch of zero
outcomes. -/
theorem search_ip_empty_targets (key : String) (ipText : List Char)
    (lookup : String → LookupResult) (h : parseIpList ipText = []) :
    search_ip (some key) ipText = Except.error StartError.preconditionError
    ∧ search_ip_events (some key) ipText lookup = [] := by
  have hstrip : strip ipText = [] := parseIpList_eq_nil_imp ipText h
  have hres : search_ip (some key) ipText = Except.error StartError.preconditionError := by
    unfold search_ip
    rw [if_pos hstrip]
  refine ⟨hres, ?_⟩
  unfold search_ip_events
  rw [hres]

/-- C6 (witness): the target text `" \n\t"` (whitespace only) parses to no
targets and is refused with the precondition error. -/
theorem search_ip_empty_targets_witness :
    parseIpList [' ', '\n', '\t'] = []
    ∧ search_ip (some "k") [' ', '\n', '\t'] = Except.error StartError.preconditionError
    ∧ search_ip_events (some "k") [' ', '\n', '\t'] (fun _ => LookupResult.success PyVal.none)
      = [] := by
  have hp : parseIpList [' ', '\n', '\t'] = [] := by decide
  have h := search_ip_empty_targets "k" [' ', '\n', '\t']
    (fun _ => LookupResult.success PyVal.none) hp
  exact ⟨hp, h.1, h.2⟩

/- ### Worker sizing: `IPSearchWorker.__init__` (main_window.py lines 25–30) -/

/-- The fields `IPSearchWorker.__init__` computes:
`self.process_count = min(multiprocessing.cpu_count(), len(ip_list))`.
`cpuCount` abstracts `multiprocessing.cpu_count()`, which is ≥ 1 whenever
it returns. -/
structure IPSearchWorker where
  api_key : String
  ip_list : List (List Char)
  process_count : Nat

def mkIPSearchWorker (cpuCount : Nat) (api_key : String)
    (ip_list : List (List Char)) : IPSearchWorker :=
  ⟨api_key, ip_list, min cpuCount ip_list.length⟩

/-- C8: for a non-empty target list (and a hardware count ≥ 1, as
`multiprocessing.cpu_count()` guarantees), the worker-pool width is
`min(cpu_count, len(ip_list))`, which lies between 1 and the number of
targets. -/
theorem process_count_width (cpuCount : Nat) (api_key : String)
    (ip_list : List (List Char)) (hcpu : 1 ≤ cpuCount) (hne : ip_list ≠ []) :
    (mkIPSearchWorker cpuCount api_key ip_list).process_count
        = min cpuCount ip_list.length
    ∧ 1 ≤ (mkIPSearchWorker cpuCount api_key ip_list).process_count
    ∧ (mkIPSearchWorker cpuCount api_key ip_list).process_count ≤ ip_list.length := by
  have hlen : 1 ≤ ip_list.length := List.length_pos.mpr hne
  refine ⟨rfl, ?_, ?_⟩
  · simp only [mkIPSearchWorker]
    omega
  · simp only [mkIPSearchWorker]
    omega

/-- C8 (witness): 8 cores and 3 targets give a pool width of 3. -/
theorem process_count_width_witness :
    (mkIPSearchWorker 8 "key" [['a'], ['b'], ['c']]).process_count = min 8 3
    ∧ 1 ≤ (mkIPSearchWorker 8 "key" [['a'], ['b'], ['c']]).process_count
    ∧ (mkIPSearchWorker 8 "key" [['a'], ['b'], ['c']]).process_count ≤ 3 := by
  have h := process_count_width 8 "key" [['a'], ['b'], ['c']] (by decide) (by simp)
  exact ⟨h.1, h.2.1, h.2.2⟩

/- ### API client: `CriminalIPAPI` (src/api/criminal_ip.py) -/

def BASE_URL : String := "https://api.criminalip.io/v1"

/-- The headers `CriminalIPAPI.__init__` builds for every call. -/
def apiHeaders (api_key : String) : List (String × String) :=
  [("x-api-key", api_key), ("Content-Type", "application/json")]

/-- One outbound `requests.get` call as issued by `_make_request`. -/
structure HttpRequest where
  url : String
  headers : List (String × String)
  params : List (String × String)

/-- What the network returns for a request: a transport failure (the
`requests` exception), or a response with an HTTP status code and a body
that either parses as JSON (`some`) or does not (`Option.none`). -/
inductive NetResult where
  | netError (msg : String)
  | response (status : Nat) (body : Option PyVal)

/-- The failure modes of `_make_request`: the `requests.get` call raising,
`response.raise_for_status()` raising `HTTPError` on a 4xx/5xx status, or
`response.json()` raising on an unparsable body. -/
inductive RequestError where
  | network (msg : String)
  | httpStatus (status : Nat)
  | invalidJson

/-- `CriminalIPAPI._make_request` (criminal_ip.py lines 14–19): build
`url = f"{BASE_URL}/{endpoint}"`, issue exactly one GET with the held
headers and the given params (`net` abstracts the network), raise via
`raise_for_status()` on an error status, then parse the body.  Returns
the list of requests issued alongside the outcome. -/
def make_request (net : HttpRequest → NetResult) (api_key endpoint : String)
    (params : List (String × String)) :
    List HttpRequest × Except RequestError PyVal :=
  let req : HttpRequest := ⟨BASE_URL ++ "/" ++ endpoint, apiHeaders api_key, params⟩
  ([req],
    match net req with
    | NetResult.netError m => Except.error (RequestError.network m)
    | NetResult.response status body =>
      if 400 ≤ status ∧ status < 600 then Except.error (RequestError.httpStatus status)
      else
        match body with
        | Option.none => Except.error RequestError.invalidJson
        | some j => Except.ok j)

/-- `CriminalIPAPI.ip_summary` (criminal_ip.py lines 33–35):
`self._make_request("asset/ip/report", {"ip": ip, "full": "true"})`. -/
def ip_summary (net : HttpRequest → NetResult) (api_key ip : String) :
    List HttpRequest × Except RequestError PyVal :=
  make_request net api_key "asset/ip/report" [("ip", ip), ("full", "true")]

/-- C7: every `ip_summary` call issues exactly one GET, to
`{BASE_URL}/asset/ip/report` with params `ip=<ip>` and `full=true` and the
`x-api-key: <key>` header, and fails exactly when the network call fails,
the HTTP status indicates failure (4xx/5xx), or the body is not valid
JSON — otherwise it returns the parsed JSON document. -/
theorem ip_summary_contract (net : HttpRequest → NetResult) (api_key ip : String) :
    (ip_summary net api_key ip).1
        = [⟨BASE_URL ++ "/asset/ip/report", apiHeaders api_key, [("ip", ip), ("full", "true")]⟩]
    ∧ ("x-api-key", api_key) ∈ apiHeaders api_key
    ∧ (∀ req ∈ (ip_summary net api_key ip).1,
        ((∃ e, (ip_summary net api_key ip).2 = Except.error e)
          ↔ (∃ m, net req = NetResult.netError m)
            ∨ (∃ st b, net req = NetResult.response st b ∧ 400 ≤ st ∧ st < 600)
            ∨ (∃ st, net req = NetResult.response st Option.none ∧ ¬(400 ≤ st ∧ st < 600)))
        ∧ ∀ st j, net req = NetResult.response st (some j) → ¬(400 ≤ st ∧ st < 600) →
            (ip_summary net api_key ip).2 = Except.ok j) := by
  have hurl : BASE_URL ++ "/" ++ "asset/ip/report" = BASE_URL ++ "/asset/ip/report" := rfl
  refine ⟨by rw [ip_summary, make_request]; rw [hurl], by simp [apiHeaders], ?_⟩
  intro req hreq
  have hreq' : req
      = ⟨BASE_URL ++ "/" ++ "asset/ip/report", apiHeaders api_key,
          [("ip", ip), ("full", "true")]⟩ := by
    rw [ip_summary, make_request] at hreq
    simpa using hreq
  subst hreq'
  constructor
  · rw [ip_summary, make_request]
    cases hnet : net _ with
    | netError m =>
      simp only [hnet]
      constructor
      · intro _
        exact Or.inl ⟨m, rfl⟩
      · intro _
        exact ⟨RequestError.network m, rfl⟩
    | response st b =>
      simp only [hnet]
      by_cases hst : 400 ≤ st ∧ st < 600
      · rw [if_pos hst]
        constructor
        · intro _
          exact Or.inr (Or.inl ⟨st, b, rfl, hst⟩)
        · intro _
          exact ⟨RequestError.httpStatus st, rfl⟩
      · rw [if_neg hst]
        cases b with
        | none =>
          constructor
          · intro _
            exact Or.inr (Or.inr ⟨st, rfl, hst⟩)
          · intro _
            exact ⟨RequestError.invalidJson, rfl⟩
        | some j =>
          constructor
          · rintro ⟨e, he⟩
            cases he
          · rintro (⟨m, hm⟩ | ⟨st', b', hr, hst'⟩ | ⟨st', hr, hst'⟩)
            · cases hm
            · cases hr
              exact absurd hst' hst
            · cases hr
  · intro st j hnet hst
    rw [ip_summary, make_request]
    simp only [hnet]
    rw [if_neg hst]

/-- C7 (witness): a network returning status 200 with a parsed JSON body
yields exactly that document, through the single issued request. -/
theorem ip_summary_contract_witness :
    (ip_summary (fun _ => NetResult.response 200 (some (PyVal.dict []))) "k" "8.8.8.8").1
        = [⟨BASE_URL ++ "/asset/ip/report", apiHeaders "k",
            [("ip", "8.8.8.8"), ("full", "true")]⟩]
    ∧ (ip_summary (fun _ => NetResult.response 200 (some (PyVal.dict []))) "k" "8.8.8.8").2
        = Except.ok (PyVal.dict []) := by
  have h := ip_summary_contract (fun _ => NetResult.response 200 (some (PyVal.dict []))) "k" "8.8.8.8"
  refine ⟨h.1, ?_⟩
  have hmem : (⟨BASE_URL ++ "/asset/ip/report", apiHeaders "k",
      [("ip", "8.8.8.8"), ("full", "true")]⟩ : HttpRequest)
      ∈ (ip_summary (fun _ => NetResult.response 200 (some (PyVal.dict []))) "k" "8.8.8.8").1 := by
    rw [h.1]
    exact List.mem_singleton.mpr rfl
  exact (h.2.2 _ hmem).2 200 (PyVal.dict []) rfl (by omega)

/- ### Result presentation: `MainWindow.add_result` (main_window.py 307–373) -/

/-- Python `dict.get(key, default)` on a `PyVal`: defined on dicts (first
binding wins, like a Python dict with unique keys), raises
(`Option.none`) on any other receiver, as `x.get` would. -/
def PyVal.getD : PyVal → String → PyVal → Option PyVal
  | PyVal.dict d, key, dflt => some ((d.lookup key).getD dflt)
  | _, _, _ => Option.none

/-- Python truthiness of a `PyVal` (`if value:`). -/
def truthy : PyVal → Bool
  | PyVal.none => false
  | PyVal.bool b => b
  | PyVal.int n => n ≠ 0
  | PyVal.str s => s ≠ ""
  | PyVal.list l => !l.isEmpty
  | PyVal.dict d => !d.isEmpty

/-- The values `MainWindow.add_result` extracts from a success payload to
fill one table row (display styling aside): `whois.data[0]` fields with
`'N/A'` defaults, `port.count` with default `0`, and the truthiness of
`issues.is_vpn` / `issues.is_mobile` with default `False`. -/
structure ResultRow where
  country : PyVal
  city : PyVal
  isp : PyVal
  openPorts : PyVal
  isVpn : Bool
  isMobile : Bool

/-- `MainWindow.add_result`'s field extraction, line by line:
`whois_data = data.get('whois', {}).get('data', [{}])[0]
   if data.get('whois', {}).get('data') else {}`,
`country = whois_data.get('org_country_code', 'N/A')`,
`city = whois_data.get('city', 'N/A')`, `isp = whois_data.get('org_name', 'N/A')`,
`open_ports = data.get('port', {}).get('count', 0)`,
`is_vpn = data.get('issues', {}).get('is_vpn', False)` (used truthily),
`is_mobile = data.get('issues', {}).get('is_mobile', False)` (used truthily).
`Option.none` is a raised exception (e.g. `.get` on a non-dict, or
indexing a non-list). -/
def add_result (data : PyVal) : Option ResultRow := do
  let w ← data.getD "whois" (PyVal.dict [])
  let wcond ← w.getD "data" PyVal.none
  let whois_data ←
    if truthy wcond then do
      let wd ← w.getD "data" (PyVal.list [PyVal.dict []])
      match wd with
      | PyVal.list (x :: _) => some x
      | _ => Option.none
    else some (PyVal.dict [])
  let country ← whois_data.getD "org_country_code" (PyVal.str "N/A")
  let city ← whois_data.getD "city" (PyVal.str "N/A")
  let isp ← whois_data.getD "org_name" (PyVal.str "N/A")
  let port ← data.getD "port" (PyVal.dict [])
  let open_ports ← port.getD "count" (PyVal.int 0)
  let issues ← data.getD "issues" (PyVal.dict [])
  let is_vpn ← issues.getD "is_vpn" (PyVal.bool false)
  let is_mobile ← issues.getD "is_mobile" (PyVal.bool false)
  some ⟨country, city, isp, open_ports, truthy is_vpn, truthy is_mobile⟩

/-- C9: a payload missing `port.count` (no `port` key, or a `port` dict
without `count`) is shown with 0 open ports; missing `issues.is_vpn` /
`issues.is_mobile` are shown as false; missing whois fields fall back to
the `'N/A'` placeholder — none of these is treated as an error. -/
theorem add_result_defaults (d : List (String × PyVal))
    (hwhois : d.lookup "whois" = Option.none
      ∨ ∃ dw, d.lookup "whois" = some (PyVal.dict dw) ∧ dw.lookup "data" = Option.none)
    (hport : d.lookup "port" = Option.none
      ∨ ∃ dp, d.lookup "port" = some (PyVal.dict dp) ∧ dp.lookup "count" = Option.none)
    (hissues : d.lookup "issues" = Option.none
      ∨ ∃ di, d.lookup "issues" = some (PyVal.dict di)
          ∧ di.lookup "is_vpn" = Option.none ∧ di.lookup "is_mobile" = Option.none) :
    add_result (PyVal.dict d)
      = some ⟨PyVal.str "N/A", PyVal.str "N/A", PyVal.str "N/A", PyVal.int 0, false, false⟩ := by
  have hw : (PyVal.dict d).getD "whois" (PyVal.dict [])
      = some (PyVal.dict (match d.lookup "whois" with
          | some (PyVal.dict dw) => dw
          | _ => [])) := by
    rcases hwhois with h | ⟨dw, h, _⟩ <;> simp [PyVal.getD, h]
  have hwdata : ∀ dw', (match d.lookup "whois" with
        | some (PyVal.dict dw) => dw
        | _ => ([] : List (String × PyVal))) = dw' → dw'.lookup "data" = Option.none := by
    intro dw' hdw'
    rcases hwhois with h | ⟨dw, h, hdata⟩
    · rw [h] at hdw'
      simp at hdw'
      subst hdw'
      rfl
    · rw [h] at hdw'
      simp at hdw'
      subst hdw'
      exact hdata
  rcases hwhois with h | ⟨dw, h, hdata⟩ <;>
  rcases hport with hp | ⟨dp, hp, hcount⟩ <;>
  rcases hissues with hi | ⟨di, hi, hvpn, hmob⟩ <;>
    simp [add_result, PyVal.getD, h, hp, hi, truthy, *]

/-- C9 (witness): the empty payload `{}` yields the all-defaults row. -/
theorem add_result_defaults_witness :
    add_result (PyVal.dict [])
      = some ⟨PyVal.str "N/A", PyVal.str "N/A", PyVal.str "N/A", PyVal.int 0, false, false⟩ :=
  add_result_defaults [] (Or.inl rfl) (Or.inl rfl) (Or.inl rfl)

/- ### Credential store: `CryptoUtils` (src/utils/crypto.py) and
`Settings` (src/config/settings.py)

`cryptography.fernet.Fernet` is an external library; for the key the
`Settings` object derives (PBKDF2 over its fixed password and salt), its
`encrypt`/`decrypt` methods are abstracted as a pair of byte-level
functions `fenc`/`fdec`.  Python `bytes` are embedded as `List Nat`;
`str.encode`/`bytes.decode` map between strings and their character
codes (UTF-8 details are irrelevant here: only invertibility on the
values that actually flow through the wrappers is used). -/

abbrev Bytes := List Nat

/-- `str.encode()`. -/
def strEncode (s : String) : Bytes := s.toList.map Char.toNat

/-- `bytes.decode()`. -/
def strDecode (b : Bytes) : String := String.mk (b.map Char.ofNat)

/-- `CryptoUtils.encrypt`: `Fernet(key).encrypt(text.encode()).decode()`;
`fenc` is `Fernet(key).encrypt`. -/
def CryptoUtils.encrypt (fenc : Bytes → Bytes) (text : String) : String :=
  strDecode (fenc (strEncode text))

/-- `CryptoUtils.decrypt`: `Fernet(key).decrypt(encrypted_text.encode()).decode()`;
`fdec` is `Fernet(key).decrypt`. -/
def CryptoUtils.decrypt (fdec : Bytes → Bytes) (encrypted_text : String) : String :=
  strDecode (fdec (strEncode encrypted_text))

/-- The `Settings` state the claim touches: the in-memory `self.api_key`
and the rewritten `.env` contents. -/
structure SettingsState where
  api_key : String
  env : List (String × String)

/-- `Settings.save_api_key` (settings.py lines 49–62): encrypt the key,
rewrite `.env` with the encrypted key (plus the salt when present), and
set `self.api_key = api_key`. -/
def save_api_key (fenc : Bytes → Bytes) (s : SettingsState) (api_key : String) :
    SettingsState :=
  { api_key := api_key,
    env := ("CRIMINAL_IP_API_KEY", CryptoUtils.encrypt fenc api_key) ::
      (match s.env.lookup "CRYPTO_SALT" with
        | some salt => [("CRYPTO_SALT", salt)]
        | Option.none => []) }

/-- `Settings.get_api_key` (settings.py lines 45–47): return `self.api_key`. -/
def get_api_key (s : SettingsState) : String := s.api_key

theorem strDecode_strEncode (s : String) : strDecode (strEncode s) = s := by
  unfold strDecode strEncode
  rw [List.map_map]
  have : ∀ c ∈ s.toList, (Char.ofNat ∘ Char.toNat) c = id c := by
    intro c _
    simp only [Function.comp_apply, id]
    exact Char.ofNat_toNat c
  rw [List.map_congr_left this, List.map_id]
  cases s
  rfl

/-- C10: provided the Fernet pair for the derived key inverts on this
token (`fdec (fenc b) = b`) and the Fernet token decodes and re-encodes
to the same bytes (Fernet tokens are urlsafe-base64 ASCII, so
`str.encode ∘ bytes.decode` is the identity on them), decrypting the
encryption of an API key returns the key; and after `save_api_key(k)` the
very next `get_api_key()` returns exactly `k`. -/
theorem crypto_roundtrip (fenc fdec : Bytes → Bytes) (k : String) (st : SettingsState)
    (hascii : strEncode (strDecode (fenc (strEncode k))) = fenc (strEncode k))
    (hfernet : fdec (fenc (strEncode k)) = strEncode k) :
    CryptoUtils.decrypt fdec (CryptoUtils.encrypt fenc k) = k
    ∧ get_api_key (save_api_key fenc st k) = k := by
  constructor
  · unfold CryptoUtils.decrypt CryptoUtils.encrypt
    rw [hascii, hfernet, strDecode_strEncode]
  · rfl

/-- C10 (witness): with the identity cipher, both halves hold for a
concrete key and settings state. -/
theorem crypto_roundtrip_witness :
    CryptoUtils.decrypt id (CryptoUtils.encrypt id "my-api-key") = "my-api-key"
    ∧ get_api_key (save_api_key id ⟨"", [("CRYPTO_SALT", "abc")]⟩ "my-api-key")
      = "my-api-key" :=
  crypto_roundtrip id id "my-api-key" ⟨"", [("CRYPTO_SALT", "abc")]⟩
    (by rw [id, strDecode_strEncode]) rfl

end CriminalIP
